import Mathlib

/-!
# Verification of the 3D joint transformation pipeline and camera model

The repository fragment under review contains the unit tests
(`tests/test_pipelines/test_pose3d_transform.py`) and a benchmark driver for
a pose-estimation data-transformation pipeline.  The pipeline implementation
itself (`mmpose.datasets.pipelines`: `SimpleCamera`, `CameraProjection`,
`RelativeJointRandomFlip`, `JointRelativization`, `JointNormalization`,
`PoseSequenceToTensor`, `Collect`, `Compose`) is not part of the fragment,
so the operational definitions below are modelled from the specification,
constrained by the concrete expectations of the test file.

Numeric arrays are embedded over `ℚ` (exact arithmetic standing in for the
floating-point arrays of the source); "equal within floating-point
tolerance" becomes exact equality over `ℚ`.
-/

namespace Pose3D

/-! ## Joint-array operations (single frame: a list of coordinate rows) -/

/-- Modelled from the spec: the pair-swap part of the random-flip stage.
For every configured flip pair `(l, r)` the rows at indices `l` and `r` are
exchanged; following the reference computation in the test
(`test_joint_transforms`), each assignment reads from the original array
`x` and writes into the accumulating copy. -/
def applyPairSwap (x : List (List ℚ)) (ps : List (ℕ × ℕ)) : List (List ℚ) :=
  ps.foldl (fun acc pr => (acc.set pr.1 (x.getD pr.2 [])).set pr.2 (x.getD pr.1 [])) x

/-- Modelled from the spec: the full flip of the random-flip stage: swap all
flip pairs, then mirror the first coordinate of every row about the root
joint's first coordinate (`x' = 2 * root_x - x`), the root coordinate being
read from the original (pre-swap) array as in the test's reference
computation. -/
def flipJoints (x : List (List ℚ)) (ps : List (ℕ × ℕ)) (root : ℕ) : List (List ℚ) :=
  let rootX := (x.getD root []).getD 0 0
  (applyPairSwap x ps).map (fun row =>
    match row with
    | [] => []
    | c0 :: rest => (2 * rootX - c0) :: rest)

/-- Modelled from the spec: the relativization array transform: subtract the
row of the root joint from every row. -/
def relativizeArr (x : List (List ℚ)) (root : ℕ) : List (List ℚ) :=
  x.map (fun row => List.zipWith (fun a b => a - b) row (x.getD root []))

/-- Modelled from the spec: elementwise `(x - mean) / std` normalization. -/
def normalizeArr (x mean std : List (List ℚ)) : List (List ℚ) :=
  List.zipWith (fun row srow => List.zipWith (fun a s => a / s) row srow)
    (List.zipWith (fun row mrow => List.zipWith (fun a m => a - m) row mrow) x mean)
    std

/-- Modelled from the spec: `PoseSequenceToTensor` on a time-major sequence
of frames of shape `[T, J, C]`: the output has shape `[J*C, T]`, row
`j*C + c` holding the time series of joint `j`'s coordinate `c`.
`J` and `C` are read off the first frame. -/
def poseSequenceToTensor (seq : List (List (List ℚ))) : List (List ℚ) :=
  let J := (seq.headD []).length
  let C := ((seq.headD []).headD []).length
  (List.range J).flatMap (fun j =>
    (List.range C).map (fun c => seq.map (fun fr => (fr.getD j []).getD c 0)))

/-- Modelled from the spec: `PoseSequenceToTensor` on a single frame of
shape `[J, C]`: the frame is promoted to a length-1 sequence, so the result
has shape `[J*C, 1]`. -/
def poseSequenceToTensor2 (x : List (List ℚ)) : List (List ℚ) :=
  poseSequenceToTensor [x]

/-! ## Camera model -/

/-- Modelled from the spec: a constructed `SimpleCamera`: extrinsics `R`
(3×3 rotation) and `T` (translation), intrinsics `f` (focal lengths) and
`c` (principal point), optional radial (`k`) and tangential (`p`)
distortion coefficient lists. -/
structure SimpleCamera where
  R : Matrix (Fin 3) (Fin 3) ℚ
  T : Fin 3 → ℚ
  f : Fin 2 → ℚ
  c : Fin 2 → ℚ
  k : Option (List ℚ)
  p : Option (List ℚ)

/-- Modelled from the spec: the camera-parameter dict handed to camera
construction.  `R` and `T` are always present in the data; the intrinsics
may come either as `f` and `c` vectors or as a combined intrinsic matrix
`K` (kept untyped as a list of rows, since its shape is part of what is
verified); distortion coefficients are optional. -/
structure CameraParam where
  R : Matrix (Fin 3) (Fin 3) ℚ
  T : Fin 3 → ℚ
  K : Option (List (List ℚ))
  f : Option (List ℚ)
  c : Option (List ℚ)
  k : Option (List ℚ)
  p : Option (List ℚ)

/-- Modelled from the spec: decomposition of the combined intrinsic matrix
`K` into diagonal focal terms `f i = K[i][i]` and the offset column
`c i = K[i][2]`; the layout is fixed by the test (`test_camera_projection`
builds `K = concatenate(diagflat(f), c, axis=-1)`, a 2-row × 3-column
matrix).  Fails on any other shape. -/
def decompK (Km : List (List ℚ)) : Option ((Fin 2 → ℚ) × (Fin 2 → ℚ)) :=
  if Km.length = 2 ∧ Km.all (fun row => row.length = 3) then
    some (fun i => (Km.getD i []).getD i 0, fun i => (Km.getD i []).getD 2 0)
  else
    none

/-- Modelled from the spec: camera construction.  Succeeds only when both a
2-vector focal length and a 2-vector principal point can be derived: from
the combined intrinsic matrix `K` when one is supplied, otherwise directly
from `f` and `c`; a parameter set with neither fails with the
missing-intrinsics configuration error (`ValueError` in the source,
embedded as `Except.error`). -/
def mkSimpleCamera (prm : CameraParam) : Except String SimpleCamera :=
  match prm.K with
  | some Km =>
    match decompK Km with
    | some fc => .ok ⟨prm.R, prm.T, fc.1, fc.2, prm.k, prm.p⟩
    | none => .error "camera intrinsic matrix K has an invalid shape"
  | none =>
    match prm.f, prm.c with
    | some fv, some cv =>
      if fv.length = 2 ∧ cv.length = 2 then
        .ok ⟨prm.R, prm.T, fun i => fv.getD i 0, fun i => cv.getD i 0, prm.k, prm.p⟩
      else
        .error "camera intrinsic parameters are missing"
    | _, _ => .error "camera intrinsic parameters are missing"

/-- Modelled from the spec: rigid world-to-camera transform
`X_camera = R · X_world + T`. -/
def world_to_camera (cam : SimpleCamera) (X : Fin 3 → ℚ) : Fin 3 → ℚ :=
  cam.R.mulVec X + cam.T

/-- Modelled from the spec: inverse rigid transform, using the transpose of
the orthonormal `R` and the negated translation:
`X_world = Rᵀ · (X_camera - T)`. -/
def camera_to_world (cam : SimpleCamera) (X : Fin 3 → ℚ) : Fin 3 → ℚ :=
  cam.R.transpose.mulVec (X - cam.T)

/-- Modelled from the spec: lens distortion of normalized image
coordinates: radial polynomial in the squared radius (one term per supplied
`k` coefficient) plus two-coefficient tangential distortion. -/
def distort (ks pcoef : List ℚ) (xn : Fin 2 → ℚ) : Fin 2 → ℚ :=
  let r2 := xn 0 ^ 2 + xn 1 ^ 2
  let radial := 1 + ((List.range ks.length).map (fun i => ks.getD i 0 * r2 ^ (i + 1))).sum
  let p0 := pcoef.getD 0 0
  let p1 := pcoef.getD 1 0
  let tangential := 2 * (p0 * xn 1 + p1 * xn 0)
  fun i => xn i * (radial + tangential) + r2 * (if i = 0 then p1 else p0)

/-- Modelled from the spec: perspective projection of a camera-frame point:
divide the first two coordinates by the depth, apply distortion when both
`k` and `p` are supplied, then scale by the focal length and offset by the
principal point.  Without distortion coefficients this is the pinhole
formula `x = f · (X_xy / X_z) + c`. -/
def camera_to_pixel (cam : SimpleCamera) (X : Fin 3 → ℚ) : Fin 2 → ℚ :=
  let z := X 2
  let xn : Fin 2 → ℚ := fun i => X (Fin.castSucc i) / z
  let xd : Fin 2 → ℚ :=
    match cam.k, cam.p with
    | some ks, some pcoef => distort ks pcoef xn
    | _, _ => xn
  fun i => cam.f i * xd i + cam.c i

/-- Modelled from the spec: `world_to_pixel` is the composition
`camera_to_pixel ∘ world_to_camera`. -/
def world_to_pixel (cam : SimpleCamera) (X : Fin 3 → ℚ) : Fin 2 → ℚ :=
  camera_to_pixel cam (world_to_camera cam X)

/-! ## The Record and the transform stages -/

/-- A value held in the pipeline's Record: a 2-D numeric array (a list of
rows), a time-major 3-D array (a list of frames), or a flip-pair list. -/
inductive Val where
  | mat : List (List ℚ) → Val
  | seq3 : List (List (List ℚ)) → Val
  | pairs : List (ℕ × ℕ) → Val
deriving DecidableEq

/-- The Record: a mapping from string keys to values, embedded as an
association list (first binding of a key wins). -/
def Rec := List (String × Val)

/-- Look a key up in a Record. -/
def rget (r : Rec) (key : String) : Option Val :=
  match r with
  | [] => none
  | (k, v) :: rest => if k = key then some v else rget rest key

/-- Write a key into a Record, replacing an existing binding in place and
otherwise appending a fresh one. -/
def rset (r : Rec) (key : String) (v : Val) : Rec :=
  match r with
  | [] => [(key, v)]
  | (k, w) :: rest => if k = key then (k, v) :: rest else (k, w) :: rset rest key v

/-- The four projection modes a `CameraProjection` stage may be configured
with. -/
inductive ProjMode where
  | cameraToWorld
  | worldToPixel
  | cameraToPixel
  | worldToCamera
deriving DecidableEq

/-- Modelled from the spec: parsing of the `mode` configuration string; any
string other than the four supported modes is rejected. -/
def parseMode (mode : String) : Option ProjMode :=
  if mode = "camera_to_world" then some .cameraToWorld
  else if mode = "world_to_pixel" then some .worldToPixel
  else if mode = "camera_to_pixel" then some .cameraToPixel
  else if mode = "world_to_camera" then some .worldToCamera
  else none

/-- Apply a projection mode to one coordinate row (a 3-D point). -/
def projectRow (cam : SimpleCamera) (md : ProjMode) (row : List ℚ) : List ℚ :=
  let X : Fin 3 → ℚ := fun i => row.getD i 0
  match md with
  | .cameraToWorld => [camera_to_world cam X 0, camera_to_world cam X 1, camera_to_world cam X 2]
  | .worldToCamera => [world_to_camera cam X 0, world_to_camera cam X 1, world_to_camera cam X 2]
  | .cameraToPixel => [camera_to_pixel cam X 0, camera_to_pixel cam X 1]
  | .worldToPixel => [world_to_pixel cam X 0, world_to_pixel cam X 1]

/-- A constructed (validated) pipeline stage.  Construction-time checks
(camera intrinsics, projection mode, normalization-parameter loading) have
already succeeded when a `Stage` exists. -/
inductive Stage where
  | flip (item : String) (rootIndex : ℕ) (visibleItem : Option String) (flipProb : ℚ)
  | relativization (item : String) (rootIndex : ℕ) (rootName : Option String) (removeRoot : Bool)
  | normalization (item : String) (mean std : List (List ℚ))
  | toTensor (item : String)
  | collectStage (keys : List (String × String)) (metaKeys : List String)
  | projection (item : String) (outputName : Option String) (cam : SimpleCamera) (md : ProjMode)

/-- Modelled from the spec: a stage descriptor from the configuration list
(the `dict(type=...)` entries of the test file).  `Collect` keys are kept
as `(source, destination)` pairs; a plain key stands for the identical
pair.  The normalization stage may name a persisted parameter store
instead of inline statistics; the store is embedded as the key-value blob
the file decodes to. -/
inductive StageSpec where
  | relativeJointRandomFlip (item : String) (rootIndex : ℕ) (visibleItem : Option String) (flipProb : ℚ)
  | jointRelativization (item : String) (rootIndex : ℕ) (rootName : Option String) (removeRoot : Bool)
  | jointNormalization (item : String) (mean std : List (List ℚ))
  | jointNormalizationFromFile (item : String) (store : List (String × List (List ℚ)))
  | poseSequenceToTensorSpec (item : String)
  | collect (keys : List (String × String)) (metaKeys : List String)
  | cameraProjection (item : String) (outputName : Option String) (cameraParam : CameraParam) (mode : String)

/-- Modelled from the spec: construction-time load of the persisted
normalization-parameter blob: the keys `mean` and `std` are looked up once;
either one missing is a configuration error. -/
def loadNormParams (store : List (String × List (List ℚ))) :
    Except String (List (List ℚ) × List (List ℚ)) :=
  match store.find? (fun kv => kv.1 == "mean"), store.find? (fun kv => kv.1 == "std") with
  | some m, some s => .ok (m.2, s.2)
  | _, _ => .error "normalization parameter file is missing mean or std"

/-- Modelled from the spec: stage construction.  All configuration
validation (projection mode, camera intrinsics, parameter-file contents)
happens here, so a misconfigured pipeline fails while being built, not at
its first `apply`. -/
def buildStage : StageSpec → Except String Stage
  | .relativeJointRandomFlip item root vis prob => .ok (.flip item root vis prob)
  | .jointRelativization item root rootName remove =>
    .ok (.relativization item root rootName remove)
  | .jointNormalization item m s => .ok (.normalization item m s)
  | .jointNormalizationFromFile item store =>
    match loadNormParams store with
    | .ok ms => .ok (.normalization item ms.1 ms.2)
    | .error e => .error e
  | .poseSequenceToTensorSpec item => .ok (.toTensor item)
  | .collect keys metaKeys => .ok (.collectStage keys metaKeys)
  | .cameraProjection item out prm mode =>
    match parseMode mode with
    | none => .error "invalid mode"
    | some md =>
      match mkSimpleCamera prm with
      | .ok cam => .ok (.projection item out cam md)
      | .error e => .error e

/-- Collect the requested `(source, destination)` keys out of a Record;
a missing source key is an error naming that key. -/
def collectKeys (r : Rec) : List (String × String) → Except String Rec
  | [] => .ok []
  | (src, dst) :: rest =>
    match rget r src with
    | some v =>
      match collectKeys r rest with
      | .ok out => .ok ((dst, v) :: out)
      | .error e => .error e
    | none => .error ("missing key: " ++ src)

/-- Check that every requested meta key is present in the Record (the meta
bundle itself is outside the numeric embedding; all pipelines verified
here use an empty meta-key list). -/
def checkMetaKeys (r : Rec) : List String → Except String Unit
  | [] => .ok ()
  | key :: rest =>
    match rget r key with
    | some _ => checkMetaKeys r rest
    | none => .error ("missing key: " ++ key)

/-- Modelled from the spec: one stage's `apply(record) -> record`.  The
`ann_info` fields the stages dereference (the flip-pair list) are embedded
as a flattened Record key `flip_pairs`.  The random-flip stage's Bernoulli
draw is deterministic at the probabilities the tests use: `flip_prob = 1`
always flips; any other probability is embedded as the draw's negative
branch (identity). -/
def applyStage (st : Stage) (r : Rec) : Except String Rec :=
  match st with
  | .flip item rootIndex visibleItem flipProb =>
    if flipProb = 1 then
      match rget r item, rget r "flip_pairs" with
      | some (.mat x), some (.pairs ps) =>
        let r1 := rset r item (.mat (flipJoints x ps rootIndex))
        match visibleItem with
        | none => .ok r1
        | some vi =>
          match rget r vi with
          | some (.mat vs) => .ok (rset r1 vi (.mat (applyPairSwap vs ps)))
          | _ => .error ("missing key: " ++ vi)
      | _, _ => .error ("missing key: " ++ item)
    else
      .ok r
  | .relativization item rootIndex rootName removeRoot =>
    match rget r item with
    | some (.mat x) =>
      let rel := relativizeArr x rootIndex
      let out := if removeRoot then rel.eraseIdx rootIndex else rel
      let r1 := rset r item (.mat out)
      match rootName with
      | none => .ok r1
      | some rn => .ok (rset r1 rn (.mat [x.getD rootIndex []]))
    | _ => .error ("missing key: " ++ item)
  | .normalization item m s =>
    match rget r item with
    | some (.mat x) => .ok (rset r item (.mat (normalizeArr x m s)))
    | _ => .error ("missing key: " ++ item)
  | .toTensor item =>
    match rget r item with
    | some (.mat x) => .ok (rset r item (.mat (poseSequenceToTensor2 x)))
    | some (.seq3 s) => .ok (rset r item (.mat (poseSequenceToTensor s)))
    | _ => .error ("missing key: " ++ item)
  | .collectStage keys metaKeys =>
    match checkMetaKeys r metaKeys with
    | .ok _ => collectKeys r keys
    | .error e => .error e
  | .projection item outputName cam md =>
    match rget r item with
    | some (.mat x) =>
      .ok (rset r (outputName.getD item) (.mat (x.map (projectRow cam md))))
    | some (.seq3 s) =>
      .ok (rset r (outputName.getD item) (.seq3 (s.map (List.map (projectRow cam md)))))
    | _ => .error ("missing key: " ++ item)

/-- Run a chain of constructed stages left to right over a Record,
propagating the first error. -/
def applyPipeline : List Stage → Rec → Except String Rec
  | [], r => .ok r
  | st :: rest, r =>
    match applyStage st r with
    | .ok r1 => applyPipeline rest r1
    | .error e => .error e

/-- Modelled from the spec: the Composer: build every stage of the
configuration list (failing fast on the first construction error). -/
def buildPipeline : List StageSpec → Except String (List Stage)
  | [] => .ok []
  | spec :: rest =>
    match buildStage spec with
    | .ok st =>
      match buildPipeline rest with
      | .ok sts => .ok (st :: sts)
      | .error e => .error e
    | .error e => .error e

/-- Modelled from the spec: `Compose(cfg)(record)`: build the pipeline,
then apply it. -/
def runPipeline (cfg : List StageSpec) (r : Rec) : Except String Rec :=
  match buildPipeline cfg with
  | .ok stages => applyPipeline stages r
  | .error e => .error e

/-! ## Concrete data of the joint-transform tests -/

/-- The flip-pair list of the 17-joint H36M keypoint schema used by the
tests. -/
def testPairs : List (ℕ × ℕ) := [(1, 4), (2, 5), (3, 6), (11, 14), (12, 15), (13, 16)]

/-- An arbitrary 17-joint 3-D array laid out as a list of coordinate
rows. -/
def mat17 (x : Fin 17 → Fin 3 → ℚ) : List (List ℚ) :=
  [[x 0 0, x 0 1, x 0 2], [x 1 0, x 1 1, x 1 2], [x 2 0, x 2 1, x 2 2],
   [x 3 0, x 3 1, x 3 2], [x 4 0, x 4 1, x 4 2], [x 5 0, x 5 1, x 5 2],
   [x 6 0, x 6 1, x 6 2], [x 7 0, x 7 1, x 7 2], [x 8 0, x 8 1, x 8 2],
   [x 9 0, x 9 1, x 9 2], [x 10 0, x 10 1, x 10 2], [x 11 0, x 11 1, x 11 2],
   [x 12 0, x 12 1, x 12 2], [x 13 0, x 13 1, x 13 2], [x 14 0, x 14 1, x 14 2],
   [x 15 0, x 15 1, x 15 2], [x 16 0, x 16 1, x 16 2]]

/-- An arbitrary 16-row 3-column array (the shape of the normalization
statistics after root removal). -/
def mat16 (m : Fin 16 → Fin 3 → ℚ) : List (List ℚ) :=
  [[m 0 0, m 0 1, m 0 2], [m 1 0, m 1 1, m 1 2], [m 2 0, m 2 1, m 2 2],
   [m 3 0, m 3 1, m 3 2], [m 4 0, m 4 1, m 4 2], [m 5 0, m 5 1, m 5 2],
   [m 6 0, m 6 1, m 6 2], [m 7 0, m 7 1, m 7 2], [m 8 0, m 8 1, m 8 2],
   [m 9 0, m 9 1, m 9 2], [m 10 0, m 10 1, m 10 2], [m 11 0, m 11 1, m 11 2],
   [m 12 0, m 12 1, m 12 2], [m 13 0, m 13 1, m 13 2], [m 14 0, m 14 1, m 14 2],
   [m 15 0, m 15 1, m 15 2]]

/-- An arbitrary 17-row 1-column visibility array. -/
def col17 (v : Fin 17 → ℚ) : List (List ℚ) :=
  [[v 0], [v 1], [v 2], [v 3], [v 4], [v 5], [v 6], [v 7], [v 8],
   [v 9], [v 10], [v 11], [v 12], [v 13], [v 14], [v 15], [v 16]]

/-- The configuration list of the end-to-end joint-transform pipeline of
`test_joint_transforms`: flip (probability 1) → relativization (root 0,
root removed) → normalization → tensor conversion → collect. -/
def c1cfg (m s : Fin 16 → Fin 3 → ℚ) : List StageSpec :=
  [.relativeJointRandomFlip "target" 0 (some "target_visible") 1,
   .jointRelativization "target" 0 (some "global_position") true,
   .jointNormalization "target" (mat16 m) (mat16 s),
   .poseSequenceToTensorSpec "target",
   .collect [("target", "output"), ("flip_pairs", "flip_pairs")] []]

/-- The input Record of the joint-transform tests: the 17-joint `target`
array, its visibility column, and the flip-pair list from `ann_info`. -/
def c1rec (x : Fin 17 → Fin 3 → ℚ) (v : Fin 17 → ℚ) : Rec :=
  [("target", .mat (mat17 x)), ("target_visible", .mat (col17 v)),
   ("flip_pairs", .pairs testPairs)]

/-- The reference output of the end-to-end test, computed exactly as the
claim states it: `((flip(x)[1:,:] - flip(x)[0:1,:]) - mean) / std`
flattened row-major into a single column. -/
def c1manual (x : Fin 17 → Fin 3 → ℚ) (m s : Fin 16 → Fin 3 → ℚ) : List (List ℚ) :=
  let fx := flipJoints (mat17 x) testPairs 0
  let rel := (fx.drop 1).map (fun row => List.zipWith (fun a b => a - b) row (fx.headD []))
  ((normalizeArr rel (mat16 m) (mat16 s)).flatten).map (fun a => [a])

/-- The flipped joint array of the random-flip test, written out by hand:
each row holds the coordinates of its flip partner (rows 0, 7, 8, 9, 10
have none), and every first coordinate `x` is replaced by
`2 * root_x - x` with the root at index 0. -/
def expectedFlip (x : Fin 17 → Fin 3 → ℚ) : List (List ℚ) :=
  [[2 * x 0 0 - x 0 0, x 0 1, x 0 2],
   [2 * x 0 0 - x 4 0, x 4 1, x 4 2],
   [2 * x 0 0 - x 5 0, x 5 1, x 5 2],
   [2 * x 0 0 - x 6 0, x 6 1, x 6 2],
   [2 * x 0 0 - x 1 0, x 1 1, x 1 2],
   [2 * x 0 0 - x 2 0, x 2 1, x 2 2],
   [2 * x 0 0 - x 3 0, x 3 1, x 3 2],
   [2 * x 0 0 - x 7 0, x 7 1, x 7 2],
   [2 * x 0 0 - x 8 0, x 8 1, x 8 2],
   [2 * x 0 0 - x 9 0, x 9 1, x 9 2],
   [2 * x 0 0 - x 10 0, x 10 1, x 10 2],
   [2 * x 0 0 - x 14 0, x 14 1, x 14 2],
   [2 * x 0 0 - x 15 0, x 15 1, x 15 2],
   [2 * x 0 0 - x 16 0, x 16 1, x 16 2],
   [2 * x 0 0 - x 11 0, x 11 1, x 11 2],
   [2 * x 0 0 - x 12 0, x 12 1, x 12 2],
   [2 * x 0 0 - x 13 0, x 13 1, x 13 2]]

/-- The flipped visibility array of the random-flip test, written out by
hand: the same pair swap with no coordinate negation. -/
def expectedFlipVis (v : Fin 17 → ℚ) : List (List ℚ) :=
  [[v 0], [v 4], [v 5], [v 6], [v 1], [v 2], [v 3], [v 7], [v 8],
   [v 9], [v 10], [v 14], [v 15], [v 16], [v 11], [v 12], [v 13]]

/-! ## Derived predicates and concrete fixtures for the claims -/

/-- The construction-success condition of camera construction, stated in
the claim's vocabulary with the combined intrinsic matrix read in the
layout the source actually builds (2 rows × 3 columns): either a
decomposable `K` is supplied, or no `K` and both 2-vector `f` and `c`. -/
def intrinsicsDerivable (prm : CameraParam) : Prop :=
  (match prm.K with
   | some Km => Km.length = 2 ∧ ∀ row ∈ Km, row.length = 3
   | none => False)
  ∨ (prm.K = none ∧
     match prm.f, prm.c with
     | some fv, some cv => fv.length = 2 ∧ cv.length = 2
     | _, _ => False)

/-- The construction-success condition exactly as the claim words it:
`f` and `c` supplied directly, or a 3-row × 2-column combined intrinsic
matrix decomposed into diagonal focal terms plus the remaining offset
entries (in a 3×2 matrix the offset can only occupy the third row). -/
def intrinsicsDerivable32 (prm : CameraParam) : Prop :=
  (match prm.f, prm.c with
   | some fv, some cv => fv.length = 2 ∧ cv.length = 2
   | _, _ => False)
  ∨ (match prm.K with
     | some Km => Km.length = 3 ∧ ∀ row ∈ Km, row.length = 2
     | none => False)

/-- A camera-parameter set supplying only the combined intrinsic matrix,
in the 2-row × 3-column layout the test builds
(`K = concatenate(diagflat(f), c, axis=-1)`). -/
def prmKonly : CameraParam :=
  ⟨1, fun _ => 0, some [[1149, 0, 512], [0, 1147, 515]], none, none, none, none⟩

/-- A camera-parameter set with every intrinsic field removed (the
`pytest.raises(ValueError)` fixture of `test_camera_projection`). -/
def prmNoIntr : CameraParam :=
  ⟨1, fun _ => 0, none, none, none, none, none⟩

/-- A concrete camera with identity extrinsics and trivial intrinsics,
used to instantiate hypotheses in witnesses. -/
def camId : SimpleCamera :=
  ⟨1, fun _ => 0, fun _ => 1, fun _ => 0, none, none⟩

/-- Projection of a whole Record value: a single-frame `[N, D]` array is
projected row by row, a time-major `[T, N, D]` array frame by frame — the
two array layouts the projection stage accepts.  A flip-pair list is
returned unchanged (the stage never reaches this case; it rejects the
key instead). -/
def projectVal (cam : SimpleCamera) (md : ProjMode) : Val → Val
  | .mat a => .mat (a.map (projectRow cam md))
  | .seq3 s => .seq3 (s.map (List.map (projectRow cam md)))
  | .pairs ps => .pairs ps

/-- The Record values the projection stage accepts as its input item: a
2-D `[N, D]` array or a time-major 3-D `[T, N, D]` array. -/
def isJointArr : Val → Prop
  | .mat _ => True
  | .seq3 _ => True
  | .pairs _ => False

/-- A concrete two-key Record holding a time-major `[T=1, N=2, D=3]` input
array (the layout `test_camera_projection` feeds through the projection
stages), used to instantiate the projection frame-effect claim. -/
def rDemo : Rec :=
  [("input_3d", .seq3 [[[1, 2, 3], [4, 5, 6]]]), ("flip_pairs", .pairs testPairs)]

/-- A concrete `[T=2, J=2, C=3]` time-major sequence, used to instantiate
the tensor-conversion claim. -/
def demoSeq : List (List (List ℚ)) :=
  [[[1, 2, 3], [4, 5, 6]], [[7, 8, 9], [10, 11, 12]]]

/-! ## Helper lemmas -/

theorem length_flatMap_range_const {α : Type} (J C : ℕ) (g : ℕ → List α)
    (hg : ∀ j < J, (g j).length = C) :
    ((List.range J).flatMap g).length = J * C := by
  induction J with
  | zero => simp
  | succ J ih =>
    rw [List.range_succ, List.flatMap_append, List.length_append,
      ih (fun j hj => hg j (Nat.lt_succ_of_lt hj))]
    simp [List.flatMap, hg J (Nat.lt_succ_self J), Nat.succ_mul]

theorem getD_flatMap_range {α : Type} (J C : ℕ) (g : ℕ → List α) (d : α)
    (hg : ∀ j < J, (g j).length = C) (j c : ℕ) (hj : j < J) (hc : c < C) :
    ((List.range J).flatMap g).getD (j * C + c) d = (g j).getD c d := by
  induction J with
  | zero => omega
  | succ J ih =>
    have hlen : ((List.range J).flatMap g).length = J * C :=
      length_flatMap_range_const J C g (fun j' hj' => hg j' (Nat.lt_succ_of_lt hj'))
    rw [List.range_succ, List.flatMap_append]
    by_cases hjJ : j < J
    · rw [List.getD_append]
      · exact ih (fun j' hj' => hg j' (Nat.lt_succ_of_lt hj')) hjJ
      · rw [hlen]
        have h1 : (j + 1) * C ≤ J * C := Nat.mul_le_mul_right C hjJ
        have h2 : j * C + c < (j + 1) * C := by rw [Nat.succ_mul]; omega
        omega
    · have hjeq : j = J := by omega
      subst hjeq
      rw [List.getD_append_right _ _ _ _ (by rw [hlen]; exact Nat.le_add_right _ _)]
      rw [hlen, Nat.add_sub_cancel_left]
      simp only [List.flatMap_cons, List.flatMap_nil, List.append_nil]

theorem getD_map_range {α : Type} (C : ℕ) (h : ℕ → α) (d : α) (c : ℕ) (hc : c < C) :
    ((List.range C).map h).getD c d = h c := by
  have hlt : c < ((List.range C).map h).length := by simp [hc]
  rw [List.getD_eq_getElem _ _ hlt]
  simp

theorem getD_map_of {α β : Type} (l : List α) (f : α → β) (d : α) (e : β)
    (h : f d = e) (t : ℕ) :
    (l.map f).getD t e = f (l.getD t d) := by
  induction l generalizing t with
  | nil => simp [h]
  | cons a l ih =>
    cases t with
    | zero => simp only [List.map_cons, List.getD_cons_zero]
    | succ n => simp only [List.map_cons, List.getD_cons_succ]; exact ih n

theorem eq_singleton_of_length_one {α : Type} (l : List α) (d : α) (h : l.length = 1) :
    l = [l.getD 0 d] := by
  match l, h with
  | [a], _ => rfl

theorem poseSequenceToTensor_eq (seq : List (List (List ℚ))) (J C : ℕ)
    (hne : seq ≠ []) (hJ : ∀ fr ∈ seq, fr.length = J)
    (hC : ∀ fr ∈ seq, ∀ row ∈ fr, row.length = C) :
    poseSequenceToTensor seq
      = (List.range J).flatMap (fun j => (List.range C).map (fun c =>
          seq.map (fun fr => (fr.getD j []).getD c 0))) := by
  obtain ⟨fr0, rest, rfl⟩ := List.exists_cons_of_ne_nil hne
  have hJ0 : fr0.length = J := hJ fr0 (List.mem_cons_self _ _)
  rcases J with _ | J
  · have hfr0 : fr0 = [] := List.eq_nil_of_length_eq_zero hJ0
    subst hfr0
    simp [poseSequenceToTensor]
  · have hfr0ne : fr0 ≠ [] := by intro h; subst h; simp at hJ0
    obtain ⟨row0, rrest, rfl⟩ := List.exists_cons_of_ne_nil hfr0ne
    have hC0 : row0.length = C := hC _ (List.mem_cons_self _ _) row0 (List.mem_cons_self _ _)
    simp only [poseSequenceToTensor, List.headD_cons]
    rw [hJ0, hC0]

theorem rget_rset (r : Rec) (key key' : String) (v : Val) :
    rget (rset r key v) key' = if key' = key then some v else rget r key' := by
  induction r with
  | nil =>
    by_cases hk : key' = key
    · simp [rget, rset, hk]
    · simp [rget, rset, hk, Ne.symm hk]
  | cons hd tl ih =>
    obtain ⟨k, w⟩ := hd
    by_cases hk : k = key
    · subst hk
      by_cases hk' : key' = k
      · simp [rget, rset, hk']
      · simp [rget, rset, hk', Ne.symm hk']
    · by_cases hk' : k = key'
      · subst hk'
        simp [rget, rset, hk]
      · simp [rget, rset, hk, hk', ih]

/-! ## The claims -/

set_option maxHeartbeats 1000000 in
/-- C1: feeding a 17-joint 3-D `target` array through the pipeline
{RandomFlip(flip_prob=1) → Relativization(root 0, remove_root) →
Normalization(mean, std) → TensorConversion → Collect} emits an `output`
equal to `((flip(x)[1:,:] - flip(x)[0:1,:]) - mean) / std` flattened to a
single channel-major column vector, where `flip` is the manual
pair-swap-and-mirror of the input. -/
theorem end_to_end_joint_pipeline (x : Fin 17 → Fin 3 → ℚ) (v : Fin 17 → ℚ)
    (m s : Fin 16 → Fin 3 → ℚ) :
    runPipeline (c1cfg m s) (c1rec x v)
      = .ok [("output", .mat (c1manual x m s)), ("flip_pairs", .pairs testPairs)] := by
  simp [runPipeline, buildPipeline, buildStage, applyPipeline, applyStage, rget, rset,
    c1cfg, c1rec, c1manual, mat17, mat16, col17, testPairs, flipJoints, applyPairSwap,
    relativizeArr, normalizeArr, poseSequenceToTensor2, poseSequenceToTensor,
    collectKeys, checkMetaKeys, loadNormParams]
  rfl

/-- C2: `world_to_pixel` is the composition of `camera_to_pixel` after
`world_to_camera`; equivalently, for an orthonormal rotation, projecting a
camera-frame point to world coordinates and then through `world_to_pixel`
gives the same pixel coordinates as `camera_to_pixel` directly. -/
theorem world_to_pixel_is_composition (cam : SimpleCamera) (x : Fin 3 → ℚ)
    (h : cam.R * cam.R.transpose = 1) :
    world_to_pixel cam x = camera_to_pixel cam (world_to_camera cam x) ∧
    camera_to_pixel cam (world_to_camera cam (camera_to_world cam x))
      = camera_to_pixel cam x := by
  refine ⟨rfl, ?_⟩
  have hx : world_to_camera cam (camera_to_world cam x) = x := by
    simp [camera_to_world, world_to_camera, Matrix.mulVec_mulVec, h, Matrix.one_mulVec]
  rw [hx]

theorem world_to_pixel_is_composition_witness :
    world_to_pixel camId ![1, 2, 3] = camera_to_pixel camId (world_to_camera camId ![1, 2, 3]) ∧
    camera_to_pixel camId (world_to_camera camId (camera_to_world camId ![1, 2, 3]))
      = camera_to_pixel camId ![1, 2, 3] :=
  world_to_pixel_is_composition camId ![1, 2, 3] (by simp [camId])

/-- C3: for an orthonormal rotation, `camera_to_world` exactly undoes
`world_to_camera`, and `world_to_camera` is the rigid transform
`X_camera = R · X_world + T`. -/
theorem camera_world_round_trip (cam : SimpleCamera) (x : Fin 3 → ℚ)
    (h : cam.R.transpose * cam.R = 1) :
    camera_to_world cam (world_to_camera cam x) = x ∧
    world_to_camera cam x = cam.R.mulVec x + cam.T := by
  constructor
  · simp [camera_to_world, world_to_camera, add_sub_cancel_right,
      Matrix.mulVec_mulVec, h, Matrix.one_mulVec]
  · rfl

theorem camera_world_round_trip_witness :
    camera_to_world camId (world_to_camera camId ![1, 2, 3]) = ![1, 2, 3] ∧
    world_to_camera camId ![1, 2, 3] = camId.R.mulVec ![1, 2, 3] + camId.T :=
  camera_world_round_trip camId ![1, 2, 3] (by simp [camId])

/-- C4 (counterexample): the claim's success condition, which reads the
combined intrinsic matrix as 3×2, is false for the parameter set that
supplies only the 2-row × 3-column `K` the test builds: camera
construction succeeds, yet neither direct `f`,`c` nor a 3×2 decomposition
is available. -/
theorem camera_intrinsics_claim_counterexample :
    ¬ ((mkSimpleCamera prmKonly).isOk = true ↔ intrinsicsDerivable32 prmKonly) := by
  intro h
  have hok : (mkSimpleCamera prmKonly).isOk = true := rfl
  have hder := h.mp hok
  simp [intrinsicsDerivable32, prmKonly] at hder

/-- C4 (amended): camera construction succeeds if and only if a 2-vector
focal length and 2-vector principal point can be derived — either supplied
directly as `f` and `c`, or by decomposing a 2-row × 3-column combined
intrinsic matrix `K` into diagonal focal terms and an offset column — and
a parameter set from which they cannot be derived makes pipeline
construction fail, at construction time rather than at the first apply. -/
theorem camera_intrinsics_construction (prm : CameraParam) :
    ((mkSimpleCamera prm).isOk = true ↔ intrinsicsDerivable prm) ∧
    (∀ (item : String) (out : Option String), ¬ intrinsicsDerivable prm →
      (buildStage (.cameraProjection item out prm "camera_to_pixel")).isOk = false) := by
  obtain ⟨R, T, K, fo, co, kk, pp⟩ := prm
  have hiff : (mkSimpleCamera ⟨R, T, K, fo, co, kk, pp⟩).isOk = true
      ↔ intrinsicsDerivable ⟨R, T, K, fo, co, kk, pp⟩ := by
    rcases K with _ | Km
    · rcases fo with _ | fv
      · simp [mkSimpleCamera, intrinsicsDerivable, Except.isOk, Except.toBool]
      · rcases co with _ | cv
        · simp [mkSimpleCamera, intrinsicsDerivable, Except.isOk, Except.toBool]
        · by_cases hl : fv.length = 2 ∧ cv.length = 2
          · simp [mkSimpleCamera, intrinsicsDerivable, Except.isOk, Except.toBool, hl]
          · simp [mkSimpleCamera, intrinsicsDerivable, Except.isOk, Except.toBool, hl]
    · simp only [mkSimpleCamera, intrinsicsDerivable, decompK]
      by_cases hd : Km.length = 2 ∧ Km.all (fun row => decide (row.length = 3)) = true
      · rw [if_pos hd]
        have hd' : Km.length = 2 ∧ ∀ row ∈ Km, row.length = 3 := by
          refine ⟨hd.1, fun row hrow => ?_⟩
          simpa using (List.all_eq_true.mp hd.2) row hrow
        simp only [Except.isOk, Except.toBool, hd'.1, true_iff, true_and]
        exact Or.inl (fun row hrow => hd'.2 row hrow)
      · rw [if_neg hd]
        have hd' : ¬ (Km.length = 2 ∧ ∀ row ∈ Km, row.length = 3) := by
          intro hcon
          exact hd ⟨hcon.1, List.all_eq_true.mpr (fun row hrow => by simpa using hcon.2 row hrow)⟩
        simp [Except.isOk, Except.toBool, hd']
  refine ⟨hiff, ?_⟩
  intro item out hnd
  rcases hmk : mkSimpleCamera ⟨R, T, K, fo, co, kk, pp⟩ with e | cam
  · simp [buildStage, parseMode, hmk, Except.isOk, Except.toBool]
  · exact absurd (hiff.mp (by rw [hmk]; rfl)) hnd

theorem camera_intrinsics_construction_witness :
    (buildStage (.cameraProjection "input_3d" none prmNoIntr "camera_to_pixel")).isOk = false :=
  (camera_intrinsics_construction prmNoIntr).2 "input_3d" none
    (by simp [intrinsicsDerivable, prmNoIntr])

/-- C5: constructing a `CameraProjection` stage with a mode string that is
not one of the four supported projections fails with the invalid-mode
configuration error, surfaced to the caller building the pipeline and
never silently defaulted. -/
theorem invalid_mode_fails (mode item : String) (out : Option String) (prm : CameraParam)
    (h : mode ∉ ["camera_to_world", "world_to_pixel", "camera_to_pixel", "world_to_camera"]) :
    buildStage (.cameraProjection item out prm mode) = .error "invalid mode" := by
  simp only [List.mem_cons, List.not_mem_nil, or_false, not_or] at h
  obtain ⟨h1, h2, h3, h4⟩ := h
  simp [buildStage, parseMode, h1, h2, h3, h4]

theorem invalid_mode_fails_witness :
    buildStage (.cameraProjection "input_3d" none prmKonly "dummy") = .error "invalid mode" :=
  invalid_mode_fails "dummy" "input_3d" none prmKonly (by decide)

/-- C6: a camera built without the distortion coefficients `k` and `p`
constructs successfully, and its projection is the undistorted pinhole
formula `x = f · (X_xy / X_z) + c`. -/
theorem pinhole_without_distortion (R : Matrix (Fin 3) (Fin 3) ℚ) (T : Fin 3 → ℚ)
    (fv cv : List ℚ) (hf : fv.length = 2) (hc : cv.length = 2) :
    mkSimpleCamera ⟨R, T, none, some fv, some cv, none, none⟩
      = .ok ⟨R, T, fun i => fv.getD i 0, fun i => cv.getD i 0, none, none⟩ ∧
    ∀ (X : Fin 3 → ℚ) (i : Fin 2),
      camera_to_pixel ⟨R, T, fun i => fv.getD i 0, fun i => cv.getD i 0, none, none⟩ X i
        = fv.getD i 0 * (X (Fin.castSucc i) / X 2) + cv.getD i 0 := by
  constructor
  · simp [mkSimpleCamera, hf, hc]
  · intro X i
    rfl

theorem pinhole_without_distortion_witness :
    mkSimpleCamera ⟨1, fun _ => 0, none, some [1149, 1147], some [508, 515], none, none⟩
      = .ok ⟨1, fun _ => 0, fun i => [(1149 : ℚ), 1147].getD i 0,
             fun i => [(508 : ℚ), 515].getD i 0, none, none⟩ :=
  (pinhole_without_distortion 1 (fun _ => 0) [1149, 1147] [508, 515] rfl rfl).1

/-- C7: the random-flip stage with `flip_prob = 1`, the H36M flip pairs and
root index 0, applied to a 17-joint array, yields exactly the array with
every flip pair's rows swapped and every first coordinate replaced by
`2 * root_x - x`; the visibility array gets the same pair swap with no
negation. -/
theorem random_flip_matches_reference (x : Fin 17 → Fin 3 → ℚ) (v : Fin 17 → ℚ) :
    applyStage (.flip "target" 0 (some "target_visible") 1) (c1rec x v)
      = .ok [("target", .mat (expectedFlip x)),
             ("target_visible", .mat (expectedFlipVis v)),
             ("flip_pairs", .pairs testPairs)] := by
  simp [applyStage, rget, rset, c1rec, mat17, col17, testPairs, flipJoints, applyPairSwap,
    expectedFlip, expectedFlipVis]

/-- C8: tensor conversion maps a well-shaped time-major `[T, J, C]` array
to the channel-major shape `[J*C, T]` with row `j*C + c` holding joint
`j`'s coordinate `c` over time, and a single `[J, C]` frame to shape
`[J*C, 1]`. -/
theorem pose_sequence_to_tensor_shape :
    (∀ (seq : List (List (List ℚ))) (J C : ℕ), seq ≠ [] →
      (∀ fr ∈ seq, fr.length = J) → (∀ fr ∈ seq, ∀ row ∈ fr, row.length = C) →
      (poseSequenceToTensor seq).length = J * C ∧
      (∀ row ∈ poseSequenceToTensor seq, row.length = seq.length) ∧
      (∀ j c t, j < J → c < C →
        ((poseSequenceToTensor seq).getD (j * C + c) []).getD t 0
          = ((seq.getD t []).getD j []).getD c 0)) ∧
    (∀ (x : List (List ℚ)) (J C : ℕ), x.length = J → (∀ row ∈ x, row.length = C) →
      (poseSequenceToTensor2 x).length = J * C ∧
      (∀ row ∈ poseSequenceToTensor2 x, row.length = 1) ∧
      (∀ j c, j < J → c < C →
        (poseSequenceToTensor2 x).getD (j * C + c) [] = [(x.getD j []).getD c 0])) := by
  have main : ∀ (seq : List (List (List ℚ))) (J C : ℕ), seq ≠ [] →
      (∀ fr ∈ seq, fr.length = J) → (∀ fr ∈ seq, ∀ row ∈ fr, row.length = C) →
      (poseSequenceToTensor seq).length = J * C ∧
      (∀ row ∈ poseSequenceToTensor seq, row.length = seq.length) ∧
      (∀ j c t, j < J → c < C →
        ((poseSequenceToTensor seq).getD (j * C + c) []).getD t 0
          = ((seq.getD t []).getD j []).getD c 0) := by
    intro seq J C hne hJ hC
    rw [poseSequenceToTensor_eq seq J C hne hJ hC]
    have hg : ∀ j < J, ((List.range C).map (fun c =>
        seq.map (fun fr => (fr.getD j []).getD c 0))).length = C := by
      intro j _
      simp
    refine ⟨length_flatMap_range_const J C _ hg, ?_, ?_⟩
    · intro row hrow
      simp only [List.mem_flatMap, List.mem_map, List.mem_range] at hrow
      obtain ⟨j, _, c, _, rfl⟩ := hrow
      simp
    · intro j c t hj hc
      rw [getD_flatMap_range J C _ [] hg j c hj hc, getD_map_range C _ [] c hc,
        getD_map_of seq _ [] 0 rfl t]
  refine ⟨main, ?_⟩
  intro x J C hx hrows
  simp only [poseSequenceToTensor2]
  have h1 := main [x] J C (by simp)
    (by intro fr hfr; simp at hfr; subst hfr; exact hx)
    (by intro fr hfr; simp at hfr; subst hfr; exact hrows)
  obtain ⟨hlen, hrowlen, hentry⟩ := h1
  refine ⟨hlen, ?_, ?_⟩
  · intro row hrow
    have := hrowlen row hrow
    simpa using this
  · intro j c hj hc
    have hidx : j * C + c < J * C := by
      have h1' : (j + 1) * C ≤ J * C := Nat.mul_le_mul_right C hj
      have h2' : j * C + c < (j + 1) * C := by rw [Nat.succ_mul]; omega
      omega
    have hlt : j * C + c < (poseSequenceToTensor [x]).length := by rw [hlen]; exact hidx
    have hmem : (poseSequenceToTensor [x]).getD (j * C + c) [] ∈ poseSequenceToTensor [x] := by
      rw [List.getD_eq_getElem _ _ hlt]
      exact List.getElem_mem hlt
    have hrl : ((poseSequenceToTensor [x]).getD (j * C + c) []).length = 1 := by
      have := hrowlen _ hmem
      simpa using this
    have hrow := eq_singleton_of_length_one _ (0 : ℚ) hrl
    rw [hrow]
    have hent := hentry j c 0 hj hc
    simp only [List.getD_cons_zero] at hent
    rw [hent]

theorem pose_sequence_to_tensor_shape_witness :
    (poseSequenceToTensor demoSeq).length = 2 * 3 ∧
    ((poseSequenceToTensor demoSeq).getD (1 * 3 + 2) []).getD 1 0
      = ((demoSeq.getD 1 []).getD 1 []).getD 2 0 :=
  ⟨(pose_sequence_to_tensor_shape.1 demoSeq 2 3 (by decide) (by decide) (by decide)).1,
   (pose_sequence_to_tensor_shape.1 demoSeq 2 3 (by decide) (by decide) (by decide)).2.2
     1 2 1 (by decide) (by decide)⟩

/-- C9: a normalization stage built from the persisted parameter blob with
keys `mean` and `std` is the very stage built from the same arrays
supplied inline, so the two pipelines produce the same output on every
input Record. -/
theorem normalization_file_matches_inline (item : String) (m s : List (List ℚ)) :
    buildStage (.jointNormalizationFromFile item [("mean", m), ("std", s)])
      = buildStage (.jointNormalization item m s) ∧
    ∀ (r : Rec),
      runPipeline [.jointNormalizationFromFile item [("mean", m), ("std", s)]] r
        = runPipeline [.jointNormalization item m s] r :=
  ⟨rfl, fun _ => rfl⟩

/-- C10: a `CameraProjection` stage whose `output_name` differs from its
input item writes exactly the named output key: for either array layout
the stage accepts (a single-frame 2-D array or the time-major 3-D arrays
the test feeds through the projection pipelines), the result Record is
the input Record with only that key set, the projected output is found
under it, the input item still holds its original array, and every other
key reads unchanged. -/
theorem camera_projection_writes_only_output (item outName : String) (cam : SimpleCamera)
    (md : ProjMode) (r : Rec) (w : Val)
    (hitem : rget r item = some w) (harr : isJointArr w) (hne : outName ≠ item) :
    applyStage (.projection item (some outName) cam md) r
      = .ok (rset r outName (projectVal cam md w)) ∧
    rget (rset r outName (projectVal cam md w)) outName = some (projectVal cam md w) ∧
    rget (rset r outName (projectVal cam md w)) item = some w ∧
    (∀ key, key ≠ outName →
      rget (rset r outName (projectVal cam md w)) key = rget r key) := by
  refine ⟨?_, ?_, ?_, ?_⟩
  · rcases w with a | s | ps
    · simp [applyStage, hitem, projectVal]
    · simp [applyStage, hitem, projectVal]
    · exact absurd harr (by simp [isJointArr])
  · rw [rget_rset]
    simp
  · rw [rget_rset, if_neg (Ne.symm hne), hitem]
  · intro key hk
    rw [rget_rset, if_neg hk]

theorem camera_projection_writes_only_output_witness :
    applyStage (.projection "input_3d" (some "input_3d_w") camId .cameraToWorld) rDemo
      = .ok (rset rDemo "input_3d_w"
          (projectVal camId .cameraToWorld (.seq3 [[[1, 2, 3], [4, 5, 6]]]))) :=
  (camera_projection_writes_only_output "input_3d" "input_3d_w" camId .cameraToWorld rDemo
    (.seq3 [[[1, 2, 3], [4, 5, 6]]]) (by decide) trivial (by decide)).1

end Pose3D
